import Mathlib

/-!
Verification of the whagonsRTE core: tenant connection lifecycle, per-tenant
change-notification listener (dynamic channel discovery), session registry with
tenant-scoped authorization.

The Go program's shared maps (`e.sessions`, `e.authenticatedSessions`,
`e.tenantDBs`) are modelled as association lists with Go map semantics:
assignment overwrites, `delete` removes the key.  Stateful handlers become
pure functions from the observed state (plus oracles for external effects
such as connection success or send success) to the resulting state together
with the externally visible events (send attempts, deliveries, closed
connections, spawned goroutines).
-/

namespace WhagonsRTE

/-! ## Association-list maps with Go map semantics -/

/-- Lookup in an association list (first matching key wins). -/
def mlookup {α : Type} : List (String × α) → String → Option α
  | [], _ => none
  | (k', v) :: rest, k => if k' = k then some v else mlookup rest k

/-- Remove a key, as Go's `delete(m, k)`. -/
def merase {α : Type} (m : List (String × α)) (k : String) : List (String × α) :=
  m.filter (fun p => p.1 ≠ k)

/-- Overwrite a key, as Go's `m[k] = v`. -/
def minsert {α : Type} (m : List (String × α)) (k : String) (v : α) : List (String × α) :=
  (k, v) :: merase m k

/-- The keys of the map, in entry order. -/
def mkeys {α : Type} (m : List (String × α)) : List String :=
  m.map (·.1)

/-- Remove a list of keys, one after the other. -/
def meraseAll {α : Type} (m : List (String × α)) (ks : List String) : List (String × α) :=
  ks.foldl (fun acc k => merase acc k) m

theorem mlookup_merase {α : Type} (m : List (String × α)) (k k' : String) :
    mlookup (merase m k) k' = if k' = k then none else mlookup m k' := by
  induction m with
  | nil => simp [merase, mlookup]
  | cons p rest ih =>
    obtain ⟨a, v⟩ := p
    simp only [merase, ne_eq, decide_not] at ih ⊢
    by_cases hak : a = k
    · subst hak
      by_cases hk' : k' = a
      · subst hk'; simp [List.filter_cons, ih]
      · have hak' : ¬ a = k' := fun h => hk' h.symm
        simp [List.filter_cons, ih, hk', mlookup, hak']
    · by_cases hak' : a = k'
      · subst hak'
        simp [List.filter_cons, hak, mlookup]
      · simp [List.filter_cons, hak, mlookup, hak', ih]

theorem mlookup_minsert {α : Type} (m : List (String × α)) (k k' : String) (v : α) :
    mlookup (minsert m k v) k' = if k = k' then some v else mlookup m k' := by
  simp only [minsert, mlookup]
  by_cases h : k = k'
  · simp [h]
  · simp only [h, if_false]
    rw [mlookup_merase]
    have h' : ¬ k' = k := fun hh => h hh.symm
    simp [h']

theorem mkeys_merase {α : Type} (m : List (String × α)) (k : String) :
    mkeys (merase m k) = (mkeys m).filter (fun x => x ≠ k) := by
  induction m with
  | nil => rfl
  | cons p rest ih =>
    by_cases h : p.1 = k <;> simp_all [merase, mkeys, List.filter_cons]

theorem meraseAll_cons {α : Type} (m : List (String × α)) (k : String) (ks : List String) :
    meraseAll m (k :: ks) = meraseAll (merase m k) ks := rfl

theorem meraseAll_eq_filter {α : Type} (m : List (String × α)) (ks : List String) :
    meraseAll m ks = m.filter (fun p => ¬ p.1 ∈ ks) := by
  induction ks generalizing m with
  | nil => simp [meraseAll]
  | cons k rest ih =>
    rw [meraseAll_cons, ih, merase, List.filter_filter]
    apply List.filter_congr
    intro p _
    by_cases h1 : p.1 = k <;> by_cases h2 : p.1 ∈ rest <;> simp_all

theorem mlookup_meraseAll {α : Type} (m : List (String × α)) (ks : List String) (k : String) :
    mlookup (meraseAll m ks) k = if k ∈ ks then none else mlookup m k := by
  induction ks generalizing m with
  | nil => simp [meraseAll]
  | cons a rest ih =>
    rw [meraseAll_cons, ih]
    by_cases hr : k ∈ rest
    · simp [hr]
    · by_cases ha : k = a
      · subst ha; simp [hr, mlookup_merase]
      · simp [hr, ha, mlookup_merase, fun h : k = a => ha h]

theorem mkeys_filter_key {α : Type} (m : List (String × α)) (p : String → Bool) :
    mkeys (m.filter (fun e => p e.1)) = (mkeys m).filter p := by
  induction m with
  | nil => rfl
  | cons e rest ih =>
    by_cases h : p e.1 <;> simp_all [mkeys, List.filter_cons]

theorem mkeys_meraseAll {α : Type} (m : List (String × α)) (ks : List String) :
    mkeys (meraseAll m ks) = (mkeys m).filter (fun x => ¬ x ∈ ks) := by
  rw [meraseAll_eq_filter]
  exact mkeys_filter_key m (fun x => decide (¬ x ∈ ks))

theorem mem_mkeys_iff_lookup {α : Type} (m : List (String × α)) (k : String) :
    k ∈ mkeys m ↔ (mlookup m k).isSome := by
  induction m with
  | nil => simp [mkeys, mlookup]
  | cons p rest ih =>
    by_cases h : p.1 = k
    · subst h; simp [mkeys, mlookup]
    · simp only [mkeys, List.map_cons, List.mem_cons, mlookup]
      rw [if_neg h]
      simp only [mkeys] at ih
      constructor
      · rintro (rfl | hm)
        · exact absurd rfl h
        · exact ih.mp hm
      · intro hm; exact Or.inr (ih.mpr hm)

/-! ## Data model (types.go) -/

/-- `TenantDB` from types.go: a tenant row as scanned by the engine
(`database` non-null, a `string` in Go). -/
structure TenantDB where
  id : Int
  name : String
  domain : String
  database : String
deriving DecidableEq

/-- A row of the landlord `tenants` table; `database` may be SQL NULL. -/
structure TenantRow where
  id : Int
  name : String
  domain : String
  database : Option String
deriving DecidableEq

/-- The landlord queries `SELECT id, name, domain, database FROM tenants WHERE
database IS NOT NULL` (database.go:111 and database.go:144): rows with a null
database are excluded. -/
def queryTenantsWithDatabase (rows : List TenantRow) : List TenantDB :=
  rows.filterMap (fun r =>
    match r.database with
    | some d => some ⟨r.id, r.name, r.domain, d⟩
    | none => none)

/-- `WebSocketSession` from types.go (the connection handle is abstracted to
an identifier; `LastPing` is not needed by any claim). -/
structure WSSession where
  conn : Nat
  tenant : String
  userId : Int
deriving DecidableEq

/-- `AuthenticatedSession` from types.go (fields used by the claims). -/
structure AuthenticatedSession where
  sessionId : String
  tenantName : String
  userId : Int
deriving DecidableEq

/-- `PostgreSQLNotification` from types.go: the decoded per-tenant trigger
payload.  `new_data` / `old_data` are opaque raw JSON (modelled as the exact
byte string of the JSON value, `none` when absent); the float64 timestamp is
modelled as an exact rational (it is only ever copied, never computed with). -/
structure PostgreSQLNotification where
  table : String
  operation : String
  newData : Option String
  oldData : Option String
  timestamp : Rat
deriving DecidableEq

/-- `PublicationMessage` from types.go: the outbound database-event message. -/
structure PublicationMessage where
  type : String
  tenantName : String
  table : String
  operation : String
  newData : Option String
  oldData : Option String
  message : String
  dbTimestamp : Rat
  clientTime : String
  sessionId : String
deriving DecidableEq

/-- `SystemMessage` from types.go (fields used by the claims; `Data` is
opaque). -/
structure SystemMessage where
  type : String
  operation : String
  message : String
  timestamp : String
  sessionId : String
deriving DecidableEq

/-- The engine's shared maps (`RealtimeEngine` in types.go): the session map,
the authenticated-session map and the tenant connection pool (a pooled
connection is abstracted to a handle). -/
abbrev SessionMap := List (String × WSSession)

abbrev AuthMap := List (String × AuthenticatedSession)

abbrev PoolMap := List (String × Nat)

/-- Modelled from the spec: `canAccessTenant` is referenced at
src/unnamed/part_004:203 but its body is not among the provided sources.
Per the spec (§4.4): "the authorization predicate — an identity may access a
tenant's events only if its own tenant name matches.  (Cross-tenant access is
always denied; there is no superuser bypass in the base design.)" -/
def AuthenticatedSession.canAccessTenant (a : AuthenticatedSession) (tenantName : String) : Bool :=
  a.tenantName == tenantName

/-! ## handlePublicationNotification (src/unnamed/part_004:136-175)

The JSON decode of the raw payload is `encoding/json` library code; the model
starts from the decoded `PostgreSQLNotification` (the "well-formed payload"
case; a payload that fails to decode is dropped before this point).
`now` is the RFC3339 rendering of `time.Now()` at send time. -/

def handlePublicationNotification (tenantName : String) (now : String)
    (pg : PostgreSQLNotification) : PublicationMessage :=
  let base : PublicationMessage :=
    { type := "database"
      tenantName := tenantName
      table := pg.table
      operation := pg.operation
      newData := pg.newData
      oldData := pg.oldData
      message := ""
      dbTimestamp := pg.timestamp
      clientTime := now
      sessionId := "" }
  if pg.operation = "INSERT" then
    { base with message := "New record created in " ++ tenantName ++ "." ++ pg.table }
  else if pg.operation = "UPDATE" then
    { base with message := "Record updated in " ++ tenantName ++ "." ++ pg.table }
  else if pg.operation = "DELETE" then
    { base with message := "Record deleted from " ++ tenantName ++ "." ++ pg.table }
  else
    { base with message := pg.operation ++ " operation on " ++ tenantName ++ "." ++ pg.table }

/-! ## BroadcastPublicationMessage (src/unnamed/part_004:178-241)

The function snapshots both maps under a read lock, then iterates the
snapshot: a session with no authenticated identity is skipped; an identity
failing `canAccessTenant` is skipped; otherwise a send is attempted, and a
send failure deletes the session from both live maps under the write lock.
`sendOk` is the oracle for `Conn.WriteMessage` succeeding. -/

structure BroadcastResult where
  attempted : List String
  delivered : List String
  failed : List String
  sessions : SessionMap
  auth : AuthMap

def bpmGo (authSnap : AuthMap) (msg : PublicationMessage) (sendOk : String → Bool) :
    List (String × WSSession) → SessionMap → AuthMap → BroadcastResult
  | [], live, liveAuth => ⟨[], [], [], live, liveAuth⟩
  | (sid, _) :: rest, live, liveAuth =>
    match mlookup authSnap sid with
    | none => bpmGo authSnap msg sendOk rest live liveAuth
    | some a =>
      if a.canAccessTenant msg.tenantName then
        if sendOk sid then
          let r := bpmGo authSnap msg sendOk rest live liveAuth
          ⟨sid :: r.attempted, sid :: r.delivered, r.failed, r.sessions, r.auth⟩
        else
          let r := bpmGo authSnap msg sendOk rest (merase live sid) (merase liveAuth sid)
          ⟨sid :: r.attempted, r.delivered, sid :: r.failed, r.sessions, r.auth⟩
      else
        bpmGo authSnap msg sendOk rest live liveAuth

def BroadcastPublicationMessage (sessions : SessionMap) (auth : AuthMap)
    (msg : PublicationMessage) (sendOk : String → Bool) : BroadcastResult :=
  bpmGo auth msg sendOk sessions sessions auth

/-! ## BroadcastSystemMessage (src/websocket.go:195-223)

Snapshots only the session map; no authorization check and no consultation of
the authenticated-session map.  A send failure deletes the session from both
live maps. -/

def bsmGo (sendOk : String → Bool) :
    List (String × WSSession) → SessionMap → AuthMap → BroadcastResult
  | [], live, liveAuth => ⟨[], [], [], live, liveAuth⟩
  | (sid, _) :: rest, live, liveAuth =>
    if sendOk sid then
      let r := bsmGo sendOk rest live liveAuth
      ⟨sid :: r.attempted, sid :: r.delivered, r.failed, r.sessions, r.auth⟩
    else
      let r := bsmGo sendOk rest (merase live sid) (merase liveAuth sid)
      ⟨sid :: r.attempted, r.delivered, sid :: r.failed, r.sessions, r.auth⟩

def BroadcastSystemMessage (sessions : SessionMap) (auth : AuthMap)
    (_msg : SystemMessage) (sendOk : String → Bool) : BroadcastResult :=
  bsmGo sendOk sessions sessions auth

/-! ## Session registry operations (src/websocket.go) -/

/-- Registration at the end of the upgrade handler (src/websocket.go:84-88):
both maps receive the fresh session id inside one write-lock section. -/
def registerSession (sessions : SessionMap) (auth : AuthMap) (sid : String)
    (ws : WSSession) (a : AuthenticatedSession) : SessionMap × AuthMap :=
  (minsert sessions sid ws, minsert auth sid a)

/-- `cleanupSession` (src/websocket.go:328-337): deletes the id from both maps
inside one write-lock section. -/
def cleanupSession (sessions : SessionMap) (auth : AuthMap) (sid : String) :
    SessionMap × AuthMap :=
  (merase sessions sid, merase auth sid)

/-- `cleanupZombieSessions` (src/websocket.go:340-378): under one write lock,
probe every session in the session map (`probeOk` is the oracle for the probe
`WriteMessage` succeeding), collect the failures, then — after the full sweep —
delete each failure from both maps. -/
structure ZombieResult where
  sessions : SessionMap
  auth : AuthMap
  zombies : List String

def cleanupZombieSessions (sessions : SessionMap) (auth : AuthMap)
    (probeOk : String → Bool) : ZombieResult :=
  let zombies := (sessions.filter (fun p => ¬ probeOk p.1)).map (·.1)
  ⟨meraseAll sessions zombies, meraseAll auth zombies, zombies⟩

/-- `DisconnectAllSessions` (src/websocket.go:245-277): after notifying every
session, both maps are replaced by fresh empty maps under the write lock. -/
def DisconnectAllSessions (_sessions : SessionMap) (_auth : AuthMap) :
    SessionMap × AuthMap :=
  ([], [])

/-! ## reloadTenantDatabases (src/database.go:143-191)

Re-reads the tenant table, snapshots the pool's key set under a read lock,
and connects only to tenants whose name is not in that snapshot.
`connectOk t` is the oracle for `connectToTenant` succeeding (open + ping);
on success the pool gains the entry `newConn t` and a publication listener is
spawned; on failure the tenant is logged and skipped.  The count of newly
connected tenants is the value the function logs
("🆕 Connected to %d new tenant(s)"). -/

structure ReloadResult where
  pool : PoolMap
  newTenantsCount : Nat
  attempted : List String
  listenersSpawned : List String

def reloadGo (connectOk : TenantDB → Bool) (newConn : TenantDB → Nat)
    (existing : List String) : List TenantDB → PoolMap → ReloadResult
  | [], pool => ⟨pool, 0, [], []⟩
  | t :: ts, pool =>
    if t.name ∈ existing then
      reloadGo connectOk newConn existing ts pool
    else if connectOk t then
      let r := reloadGo connectOk newConn existing ts (minsert pool t.name (newConn t))
      ⟨r.pool, r.newTenantsCount + 1, t.name :: r.attempted, t.name :: r.listenersSpawned⟩
    else
      let r := reloadGo connectOk newConn existing ts pool
      ⟨r.pool, r.newTenantsCount, t.name :: r.attempted, r.listenersSpawned⟩

def reloadTenantDatabases (rows : List TenantRow) (connectOk : TenantDB → Bool)
    (newConn : TenantDB → Nat) (pool : PoolMap) : ReloadResult :=
  reloadGo connectOk newConn (mkeys pool) (queryTenantsWithDatabase rows) pool

/-- `ReloadTenants` (src/database.go:194-199): guard on a connected landlord,
then delegate to `reloadTenantDatabases`.  `landlordConnected` models
`e.landlordDB != nil`. -/
def ReloadTenants (landlordConnected : Bool) (rows : List TenantRow)
    (connectOk : TenantDB → Bool) (newConn : TenantDB → Nat) (pool : PoolMap) :
    Option ReloadResult :=
  if landlordConnected then some (reloadTenantDatabases rows connectOk newConn pool)
  else none

/-! ## handleTenantChangeNotification (src/database.go:281-353)

The payload of the landlord notification is `notification.Extra`; `parsed`
is the result of `json.Unmarshal` on it (library code), `none` on a parse
failure.  The synchronous effect on the pool map is modelled together with
the connections closed and the asynchronous work spawned. -/

/-- The decoded landlord tenant-change payload (anonymous struct at
src/database.go:285-291). -/
structure TenantChangePayload where
  operation : String
  table : String
  newData : Option TenantDB
  oldData : Option TenantDB
  timestamp : Rat
deriving DecidableEq

inductive TenantAction where
  | fullReload
  | spawnRetry (t : TenantDB)
deriving DecidableEq

structure TenantChangeResult where
  pool : PoolMap
  closed : List Nat
  actions : List TenantAction

def handleTenantChangeNotification (rows : List TenantRow)
    (connectOk : TenantDB → Bool) (newConn : TenantDB → Nat) (pool : PoolMap)
    (extra : String) (parsed : Option TenantChangePayload) : TenantChangeResult :=
  if extra ≠ "" then
    match parsed with
    | none =>
      ⟨(reloadTenantDatabases rows connectOk newConn pool).pool, [], [.fullReload]⟩
    | some p =>
      if p.operation = "CONNECTION_TEST" then ⟨pool, [], []⟩
      else if p.operation = "MANUAL_TEST" then ⟨pool, [], []⟩
      else if p.operation = "INSERT" then
        match p.newData with
        | some t =>
          if t.database ≠ "" then ⟨pool, [], [.spawnRetry t]⟩ else ⟨pool, [], []⟩
        | none => ⟨pool, [], []⟩
      else if p.operation = "UPDATE" then
        match p.newData with
        | some _ =>
          ⟨(reloadTenantDatabases rows connectOk newConn pool).pool, [], [.fullReload]⟩
        | none => ⟨pool, [], []⟩
      else if p.operation = "DELETE" then
        match p.oldData with
        | some t =>
          match mlookup pool t.name with
          | some c => ⟨merase pool t.name, [c], []⟩
          | none => ⟨pool, [], []⟩
        | none => ⟨pool, [], []⟩
      else ⟨pool, [], []⟩
  else
    ⟨(reloadTenantDatabases rows connectOk newConn pool).pool, [], [.fullReload]⟩

/-! ## connectToTenantWithRetry (src/database.go:382-419)

`maxRetries = 5`, `baseDelay = 2` seconds.  The loop re-reads the shared pool
under a read lock before every attempt; concurrent mutation of the pool by
other goroutines is modelled by `pools k`, the pool state observed at
iteration `k`.  `ok k` is the oracle for `connectToTenant` succeeding at
iteration `k`.  On success `connectToTenant` installs the entry and the
caller spawns the listener; on exhaustion the function performs no write. -/

def maxRetries : Nat := 5

def baseDelay : Nat := 2

inductive RetryOutcome where
  | alreadyConnected (k : Nat)
  | connected (k : Nat)
  | exhausted
deriving DecidableEq

structure RetryResult where
  pool : PoolMap
  attemptsMade : Nat
  sleeps : List Nat
  outcome : RetryOutcome

def retryGo (t : TenantDB) (ok : Nat → Bool) (pools : Nat → PoolMap)
    (newConn : Nat) : Nat → Nat → RetryResult
  | _, 0 => ⟨[], 0, [], .exhausted⟩
  | attempt, fuel + 1 =>
    if (mlookup (pools attempt) t.name).isSome then
      ⟨pools attempt, 0, [], .alreadyConnected attempt⟩
    else if ok attempt then
      ⟨minsert (pools attempt) t.name newConn, 1, [], .connected attempt⟩
    else if attempt = maxRetries then
      ⟨pools attempt, 1, [], .exhausted⟩
    else
      ⟨(retryGo t ok pools newConn (attempt + 1) fuel).pool,
        (retryGo t ok pools newConn (attempt + 1) fuel).attemptsMade + 1,
        attempt * baseDelay :: (retryGo t ok pools newConn (attempt + 1) fuel).sleeps,
        (retryGo t ok pools newConn (attempt + 1) fuel).outcome⟩

def connectToTenantWithRetry (t : TenantDB) (ok : Nat → Bool)
    (pools : Nat → PoolMap) (newConn : Nat) : RetryResult :=
  retryGo t ok pools newConn 1 maxRetries

/-! ## SQL primitives used by the trigger-discovery query

The discovery query (src/unnamed/part_004:75-82) is

  SELECT DISTINCT REPLACE(tgname, '_changes_trigger', '') AS table_name
  FROM pg_trigger
  WHERE tgname LIKE '%_changes_trigger' AND tgisinternal = false
  ORDER BY table_name

SQL `LIKE` treats `%` as "any string" and `_` as "any single character";
`REPLACE` removes every (leftmost-first, non-overlapping) occurrence of the
pattern.  Both are modelled on character lists with a fuel argument large
enough to cover every recursion (each step consumes at least one character,
so `|pattern| + |string| + 1` fuel always suffices). -/

def likeFuel : Nat → List Char → List Char → Bool
  | 0, _, _ => false
  | _ + 1, [], s => s.isEmpty
  | fuel + 1, p :: ps, s =>
    if p = '%' then
      likeFuel fuel ps s ||
        (match s with
         | [] => false
         | _ :: s' => likeFuel fuel (p :: ps) s')
    else
      match s with
      | [] => false
      | c :: s' => (p = '_' || p = c) && likeFuel fuel ps s'

/-- SQL `LIKE` with wildcards `%` (any string) and `_` (any one character). -/
def sqlLike (pat s : String) : Bool :=
  likeFuel (pat.length + s.length + 1) pat.toList s.toList

def listIsPrefix : List Char → List Char → Bool
  | [], _ => true
  | _ :: _, [] => false
  | a :: as, b :: bs => a = b && listIsPrefix as bs

def replaceFuel (pat repl : List Char) : Nat → List Char → List Char
  | 0, s => s
  | _ + 1, [] => []
  | fuel + 1, c :: rest =>
    if listIsPrefix pat (c :: rest) then
      repl ++ replaceFuel pat repl fuel ((c :: rest).drop pat.length)
    else
      c :: replaceFuel pat repl fuel rest

/-- SQL `REPLACE(s, pat, repl)`: every occurrence of `pat` in `s` replaced,
leftmost first, non-overlapping. -/
def sqlReplace (s pat repl : String) : String :=
  if pat.toList.isEmpty then s
  else ⟨replaceFuel pat.toList repl.toList (s.toList.length + 1) s.toList⟩

/-- Byte-order comparison of strings (the `ORDER BY` of the query under the C
collation; only the result's membership is ever used). -/
def charListLe : List Char → List Char → Bool
  | [], _ => true
  | _ :: _, [] => false
  | a :: as, b :: bs =>
    if a.toNat < b.toNat then true
    else if b.toNat < a.toNat then false
    else charListLe as bs

def strLe (a b : String) : Bool := charListLe a.toList b.toList

def sortInsert (x : String) : List String → List String
  | [] => [x]
  | y :: ys => if strLe x y then x :: y :: ys else y :: sortInsert x ys

def sortStrings : List String → List String
  | [] => []
  | x :: xs => sortInsert x (sortStrings xs)

theorem mem_sortInsert (a x : String) (l : List String) :
    a ∈ sortInsert x l ↔ a = x ∨ a ∈ l := by
  induction l with
  | nil => simp [sortInsert]
  | cons y ys ih =>
    simp only [sortInsert]
    by_cases h : strLe x y
    · simp [h]
    · rw [if_neg h]
      simp only [List.mem_cons, ih]
      tauto

theorem length_sortInsert (x : String) (l : List String) :
    (sortInsert x l).length = l.length + 1 := by
  induction l with
  | nil => rfl
  | cons y ys ih =>
    by_cases h : strLe x y <;> simp [sortInsert, h, ih]

theorem mem_sortStrings (a : String) (l : List String) :
    a ∈ sortStrings l ↔ a ∈ l := by
  induction l with
  | nil => simp [sortStrings]
  | cons x xs ih => simp [sortStrings, mem_sortInsert, ih]

theorem length_sortStrings (l : List String) :
    (sortStrings l).length = l.length := by
  induction l with
  | nil => rfl
  | cons x xs ih => simp [sortStrings, length_sortInsert, ih]

/-! ## listenToTenantPublications (src/unnamed/part_004:46-133) -/

/-- A row of the tenant database's `pg_trigger` catalog (the two columns the
discovery query reads). -/
structure PgTrigger where
  tgname : String
  tgisinternal : Bool
deriving DecidableEq

/-- The channel names produced by the discovery query: one
`whagons_<table_name>_changes` per distinct `table_name` of the query above. -/
def discoverChannels (catalog : List PgTrigger) : List String :=
  let names := (catalog.filter
      (fun tg => !tg.tgisinternal && sqlLike "%_changes_trigger" tg.tgname)).map
      (fun tg => sqlReplace tg.tgname "_changes_trigger" "")
  (sortStrings names.dedup).map (fun t => "whagons_" ++ t ++ "_changes")

/-- The externally visible outcome of one run of `listenToTenantPublications`
up to the start of its event loop: which channels were subscribed, and whether
the zero-channel warning path was taken.  `catalog` is `none` when the
discovery query itself fails (early return, nothing subscribed); `subOk` is
the oracle for `listener.Listen` succeeding on a channel (a failure is logged
and skipped). -/
structure ListenResult where
  subscribed : List String
  warnedNoChannels : Bool
deriving DecidableEq

def listenToTenantPublications (pool : PoolMap) (tenantName : String)
    (catalog : Option (List PgTrigger)) (subOk : String → Bool) : ListenResult :=
  match mlookup pool tenantName with
  | none => ⟨[], false⟩
  | some _ =>
    match catalog with
    | none => ⟨[], false⟩
    | some cat =>
      let channels := discoverChannels cat
      if channels.isEmpty then ⟨[], true⟩
      else ⟨channels.filter subOk, false⟩

/-- `pat` is literally a suffix of `s`. -/
def strIsSuffix (pat s : String) : Bool :=
  listIsPrefix pat.toList.reverse s.toList.reverse

/-- Definition following the spec's words for claim C4: the tables covered by
non-internal triggers literally named `<table>_changes_trigger` (the table
name obtained by stripping that suffix). -/
def specConventionTables (catalog : List PgTrigger) : List String :=
  ((catalog.filter
      (fun tg => !tg.tgisinternal && strIsSuffix "_changes_trigger" tg.tgname)).map
      (fun tg => tg.tgname.dropRight 16)).dedup

/-! ## The engine state machine

The shared state of `RealtimeEngine` observed at the lock: the session map,
the authenticated-session map and the tenant pool.  Each constructor of
`Step` is one write-lock critical section of the Go program (one atomic
transition); interleavings of the concurrent handlers are arbitrary finite
sequences of such transitions. -/

structure EngineState where
  sessions : SessionMap
  authenticatedSessions : AuthMap
  tenantDBs : PoolMap

/-- `main` (src/unnamed/part_003): all three maps start empty. -/
def initialState : EngineState := ⟨[], [], []⟩

inductive Step : EngineState → EngineState → Prop where
  | register {st : EngineState} (sid : String) (ws : WSSession) (a : AuthenticatedSession) :
      Step st ⟨minsert st.sessions sid ws, minsert st.authenticatedSessions sid a, st.tenantDBs⟩
  | cleanup {st : EngineState} (sid : String) :
      Step st ⟨(cleanupSession st.sessions st.authenticatedSessions sid).1,
        (cleanupSession st.sessions st.authenticatedSessions sid).2, st.tenantDBs⟩
  | zombieSweep {st : EngineState} (probeOk : String → Bool) :
      Step st ⟨(cleanupZombieSessions st.sessions st.authenticatedSessions probeOk).sessions,
        (cleanupZombieSessions st.sessions st.authenticatedSessions probeOk).auth, st.tenantDBs⟩
  | broadcastPub {st : EngineState} (msg : PublicationMessage) (sendOk : String → Bool) :
      Step st ⟨(BroadcastPublicationMessage st.sessions st.authenticatedSessions msg sendOk).sessions,
        (BroadcastPublicationMessage st.sessions st.authenticatedSessions msg sendOk).auth,
        st.tenantDBs⟩
  | broadcastSys {st : EngineState} (msg : SystemMessage) (sendOk : String → Bool) :
      Step st ⟨(BroadcastSystemMessage st.sessions st.authenticatedSessions msg sendOk).sessions,
        (BroadcastSystemMessage st.sessions st.authenticatedSessions msg sendOk).auth,
        st.tenantDBs⟩
  | disconnectAll {st : EngineState} :
      Step st ⟨(DisconnectAllSessions st.sessions st.authenticatedSessions).1,
        (DisconnectAllSessions st.sessions st.authenticatedSessions).2, st.tenantDBs⟩
  | poolOp {st : EngineState} (pool' : PoolMap) :
      Step st ⟨st.sessions, st.authenticatedSessions, pool'⟩

/-- A state the engine can be in after any finite interleaving of
registrations, unregistrations, sweeps, broadcasts and tenant-pool
operations. -/
def Reachable (st : EngineState) : Prop :=
  Relation.ReflTransGen Step initialState st

/-! ## Characterization lemmas for the broadcast loops -/

theorem bpmGo_live (authSnap : AuthMap) (msg : PublicationMessage)
    (sendOk : String → Bool) (snap : List (String × WSSession))
    (live : SessionMap) (liveAuth : AuthMap) :
    (bpmGo authSnap msg sendOk snap live liveAuth).sessions =
      meraseAll live (bpmGo authSnap msg sendOk snap live liveAuth).failed ∧
    (bpmGo authSnap msg sendOk snap live liveAuth).auth =
      meraseAll liveAuth (bpmGo authSnap msg sendOk snap live liveAuth).failed := by
  induction snap generalizing live liveAuth with
  | nil => exact ⟨rfl, rfl⟩
  | cons p rest ih =>
    obtain ⟨sid, ws⟩ := p
    cases h : mlookup authSnap sid with
    | none => simp only [bpmGo, h]; exact ih live liveAuth
    | some a =>
      simp only [bpmGo, h]
      by_cases hacc : a.canAccessTenant msg.tenantName = true
      · rw [if_pos hacc]
        by_cases hok : sendOk sid = true
        · rw [if_pos hok]; exact ih live liveAuth
        · rw [if_neg hok]; exact ih (merase live sid) (merase liveAuth sid)
      · rw [if_neg hacc]; exact ih live liveAuth

theorem bpmGo_failed_sub (authSnap : AuthMap) (msg : PublicationMessage)
    (sendOk : String → Bool) (snap : List (String × WSSession))
    (live : SessionMap) (liveAuth : AuthMap) (sid : String) :
    sid ∈ (bpmGo authSnap msg sendOk snap live liveAuth).failed →
      sendOk sid = false := by
  induction snap generalizing live liveAuth with
  | nil => simp [bpmGo]
  | cons p rest ih =>
    obtain ⟨sid', ws⟩ := p
    cases h : mlookup authSnap sid' with
    | none => simp only [bpmGo, h]; exact ih live liveAuth
    | some a =>
      simp only [bpmGo, h]
      by_cases hacc : a.canAccessTenant msg.tenantName = true
      · rw [if_pos hacc]
        by_cases hok : sendOk sid' = true
        · rw [if_pos hok]; exact ih live liveAuth
        · rw [if_neg hok]
          show sid ∈ sid' :: (bpmGo authSnap msg sendOk rest
            (merase live sid') (merase liveAuth sid')).failed → _
          rw [List.mem_cons]
          rintro (rfl | hm)
          · exact Bool.not_eq_true _ ▸ eq_false_of_ne_true hok
          · exact ih (merase live sid') (merase liveAuth sid') hm
      · rw [if_neg hacc]; exact ih live liveAuth

theorem bpmGo_attempted_mem (authSnap : AuthMap) (msg : PublicationMessage)
    (sendOk : String → Bool) (snap : List (String × WSSession))
    (live : SessionMap) (liveAuth : AuthMap) (sid : String) :
    sid ∈ (bpmGo authSnap msg sendOk snap live liveAuth).attempted ↔
      (sid ∈ mkeys snap ∧
        ∃ a, mlookup authSnap sid = some a ∧
          a.canAccessTenant msg.tenantName = true) := by
  induction snap generalizing live liveAuth with
  | nil => simp [bpmGo, mkeys]
  | cons p rest ih =>
    obtain ⟨sid', ws⟩ := p
    cases h : mlookup authSnap sid' with
    | none =>
      simp only [bpmGo, h]
      rw [ih live liveAuth]
      simp only [mkeys, List.map_cons, List.mem_cons]
      constructor
      · rintro ⟨hm, ha⟩; exact ⟨Or.inr hm, ha⟩
      · rintro ⟨(rfl | hm), ha⟩
        · obtain ⟨a, ha1, _⟩ := ha; rw [h] at ha1; cases ha1
        · exact ⟨hm, ha⟩
    | some a =>
      simp only [bpmGo, h]
      by_cases hacc : a.canAccessTenant msg.tenantName = true
      · rw [if_pos hacc]
        by_cases hok : sendOk sid' = true
        · rw [if_pos hok]
          show sid ∈ sid' :: (bpmGo authSnap msg sendOk rest live liveAuth).attempted ↔ _
          rw [List.mem_cons, ih live liveAuth]
          simp only [mkeys, List.map_cons, List.mem_cons]
          constructor
          · rintro (rfl | ⟨hm, ha⟩)
            · exact ⟨Or.inl rfl, a, h, hacc⟩
            · exact ⟨Or.inr hm, ha⟩
          · rintro ⟨(rfl | hm), ha⟩
            · exact Or.inl rfl
            · exact Or.inr ⟨hm, ha⟩
        · rw [if_neg hok]
          show sid ∈ sid' :: (bpmGo authSnap msg sendOk rest
            (merase live sid') (merase liveAuth sid')).attempted ↔ _
          rw [List.mem_cons, ih (merase live sid') (merase liveAuth sid')]
          simp only [mkeys, List.map_cons, List.mem_cons]
          constructor
          · rintro (rfl | ⟨hm, ha⟩)
            · exact ⟨Or.inl rfl, a, h, hacc⟩
            · exact ⟨Or.inr hm, ha⟩
          · rintro ⟨(rfl | hm), ha⟩
            · exact Or.inl rfl
            · exact Or.inr ⟨hm, ha⟩
      · rw [if_neg hacc, ih live liveAuth]
        simp only [mkeys, List.map_cons, List.mem_cons]
        constructor
        · rintro ⟨hm, ha⟩; exact ⟨Or.inr hm, ha⟩
        · rintro ⟨(rfl | hm), ha⟩
          · obtain ⟨a', ha1, ha2⟩ := ha
            rw [h] at ha1
            cases ha1
            exact absurd ha2 hacc
          · exact ⟨hm, ha⟩

theorem bpmGo_delivered_sub (authSnap : AuthMap) (msg : PublicationMessage)
    (sendOk : String → Bool) (snap : List (String × WSSession))
    (live : SessionMap) (liveAuth : AuthMap) (sid : String) :
    sid ∈ (bpmGo authSnap msg sendOk snap live liveAuth).delivered →
      sid ∈ (bpmGo authSnap msg sendOk snap live liveAuth).attempted := by
  induction snap generalizing live liveAuth with
  | nil => simp [bpmGo]
  | cons p rest ih =>
    obtain ⟨sid', ws⟩ := p
    cases h : mlookup authSnap sid' with
    | none => simp only [bpmGo, h]; exact ih live liveAuth
    | some a =>
      simp only [bpmGo, h]
      by_cases hacc : a.canAccessTenant msg.tenantName = true
      · rw [if_pos hacc]
        by_cases hok : sendOk sid' = true
        · rw [if_pos hok]
          show sid ∈ sid' :: (bpmGo authSnap msg sendOk rest live liveAuth).delivered →
            sid ∈ sid' :: (bpmGo authSnap msg sendOk rest live liveAuth).attempted
          rw [List.mem_cons, List.mem_cons]
          rintro (rfl | hm)
          · exact Or.inl rfl
          · exact Or.inr (ih live liveAuth hm)
        · rw [if_neg hok]
          show sid ∈ (bpmGo authSnap msg sendOk rest
              (merase live sid') (merase liveAuth sid')).delivered →
            sid ∈ sid' :: (bpmGo authSnap msg sendOk rest
              (merase live sid') (merase liveAuth sid')).attempted
          rw [List.mem_cons]
          intro hm
          exact Or.inr (ih (merase live sid') (merase liveAuth sid') hm)
      · rw [if_neg hacc]; exact ih live liveAuth

theorem bsmGo_spec (sendOk : String → Bool) (snap : List (String × WSSession))
    (live : SessionMap) (liveAuth : AuthMap) :
    (bsmGo sendOk snap live liveAuth).attempted = mkeys snap ∧
    (bsmGo sendOk snap live liveAuth).delivered = (mkeys snap).filter sendOk ∧
    (bsmGo sendOk snap live liveAuth).failed =
      (mkeys snap).filter (fun s => ¬ sendOk s) ∧
    (bsmGo sendOk snap live liveAuth).sessions =
      meraseAll live (bsmGo sendOk snap live liveAuth).failed ∧
    (bsmGo sendOk snap live liveAuth).auth =
      meraseAll liveAuth (bsmGo sendOk snap live liveAuth).failed := by
  induction snap generalizing live liveAuth with
  | nil => exact ⟨rfl, rfl, rfl, rfl, rfl⟩
  | cons p rest ih =>
    obtain ⟨sid, ws⟩ := p
    simp only [bsmGo]
    by_cases hok : sendOk sid = true
    · rw [if_pos hok]
      obtain ⟨h1, h2, h3, h4, h5⟩ := ih live liveAuth
      refine ⟨?_, ?_, ?_, ?_, ?_⟩
      · show sid :: _ = mkeys ((sid, ws) :: rest)
        simp [mkeys, h1]
      · show sid :: _ = (mkeys ((sid, ws) :: rest)).filter sendOk
        simp [mkeys, List.filter_cons, hok, h2]
      · show _ = (mkeys ((sid, ws) :: rest)).filter (fun s => ¬ sendOk s)
        simp [mkeys, List.filter_cons, hok, h3]
      · exact h4
      · exact h5
    · rw [if_neg hok]
      obtain ⟨h1, h2, h3, h4, h5⟩ := ih (merase live sid) (merase liveAuth sid)
      refine ⟨?_, ?_, ?_, ?_, ?_⟩
      · show sid :: _ = mkeys ((sid, ws) :: rest)
        simp [mkeys, h1]
      · show _ = (mkeys ((sid, ws) :: rest)).filter sendOk
        simp [mkeys, List.filter_cons, hok, h2]
      · show sid :: _ = (mkeys ((sid, ws) :: rest)).filter (fun s => ¬ sendOk s)
        simp [mkeys, List.filter_cons, hok, h3]
      · show _ = meraseAll live (sid :: _)
        rw [meraseAll_cons]
        exact h4
      · show _ = meraseAll liveAuth (sid :: _)
        rw [meraseAll_cons]
        exact h5

theorem cleanupZombieSessions_spec (sessions : SessionMap) (auth : AuthMap)
    (probeOk : String → Bool) :
    (cleanupZombieSessions sessions auth probeOk).zombies =
      (mkeys sessions).filter (fun s => ¬ probeOk s) ∧
    (cleanupZombieSessions sessions auth probeOk).sessions =
      meraseAll sessions (cleanupZombieSessions sessions auth probeOk).zombies ∧
    (cleanupZombieSessions sessions auth probeOk).auth =
      meraseAll auth (cleanupZombieSessions sessions auth probeOk).zombies := by
  refine ⟨?_, rfl, rfl⟩
  show ((sessions.filter (fun p => ¬ probeOk p.1)).map (·.1)) = _
  exact mkeys_filter_key sessions (fun s => decide (¬ probeOk s))

theorem reloadGo_spec (connectOk : TenantDB → Bool) (newConn : TenantDB → Nat)
    (existing : List String) (ts : List TenantDB) (pool : PoolMap) :
    (reloadGo connectOk newConn existing ts pool).attempted =
      (ts.filter (fun t => ¬ t.name ∈ existing)).map (·.name) ∧
    (reloadGo connectOk newConn existing ts pool).listenersSpawned =
      ((ts.filter (fun t => ¬ t.name ∈ existing)).filter connectOk).map (·.name) ∧
    (reloadGo connectOk newConn existing ts pool).newTenantsCount =
      ((ts.filter (fun t => ¬ t.name ∈ existing)).filter connectOk).length ∧
    (∀ k, k ∈ existing →
      mlookup (reloadGo connectOk newConn existing ts pool).pool k = mlookup pool k) := by
  induction ts generalizing pool with
  | nil => exact ⟨rfl, rfl, rfl, fun k _ => rfl⟩
  | cons t rest ih =>
    simp only [reloadGo]
    by_cases hex : t.name ∈ existing
    · rw [if_pos hex]
      obtain ⟨h1, h2, h3, h4⟩ := ih pool
      refine ⟨?_, ?_, ?_, h4⟩
      · simp [List.filter_cons, hex, h1]
      · simp [List.filter_cons, hex, h2]
      · simp [List.filter_cons, hex, h3]
    · rw [if_neg hex]
      by_cases hco : connectOk t = true
      · rw [if_pos hco]
        obtain ⟨h1, h2, h3, h4⟩ := ih (minsert pool t.name (newConn t))
        refine ⟨?_, ?_, ?_, ?_⟩
        · show t.name :: _ = _
          simp [List.filter_cons, hex, h1]
        · show t.name :: _ = _
          simp [List.filter_cons, hex, hco, h2]
        · show _ + 1 = _
          simp [List.filter_cons, hex, hco, h3]
        · intro k hk
          rw [h4 k hk, mlookup_minsert]
          have : ¬ t.name = k := fun h => hex (h ▸ hk)
          rw [if_neg this]
      · rw [if_neg hco]
        obtain ⟨h1, h2, h3, h4⟩ := ih pool
        refine ⟨?_, ?_, ?_, h4⟩
        · show t.name :: _ = _
          simp [List.filter_cons, hex, h1]
        · simp [List.filter_cons, hex, hco, h2]
        · simp [List.filter_cons, hex, hco, h3]

theorem retryGo_spec (t : TenantDB) (ok : Nat → Bool) (pools : Nat → PoolMap)
    (conn : Nat) :
    ∀ fuel attempt, 1 ≤ attempt → attempt ≤ maxRetries →
      attempt + fuel = maxRetries + 1 →
      (retryGo t ok pools conn attempt fuel).attemptsMade ≤ fuel ∧
      (∀ j, (retryGo t ok pools conn attempt fuel).outcome = .alreadyConnected j →
        attempt ≤ j ∧ j ≤ maxRetries ∧ (mlookup (pools j) t.name).isSome ∧
        (retryGo t ok pools conn attempt fuel).attemptsMade = j - attempt ∧
        (retryGo t ok pools conn attempt fuel).pool = pools j ∧
        (retryGo t ok pools conn attempt fuel).sleeps =
          (List.range' attempt (j - attempt)).map (· * baseDelay) ∧
        (∀ k, attempt ≤ k → k < j → ok k = false ∧ mlookup (pools k) t.name = none)) ∧
      (∀ j, (retryGo t ok pools conn attempt fuel).outcome = .connected j →
        attempt ≤ j ∧ j ≤ maxRetries ∧ ok j = true ∧ mlookup (pools j) t.name = none ∧
        (retryGo t ok pools conn attempt fuel).attemptsMade = j - attempt + 1 ∧
        (retryGo t ok pools conn attempt fuel).pool = minsert (pools j) t.name conn ∧
        (retryGo t ok pools conn attempt fuel).sleeps =
          (List.range' attempt (j - attempt)).map (· * baseDelay) ∧
        (∀ k, attempt ≤ k → k < j → ok k = false ∧ mlookup (pools k) t.name = none)) ∧
      ((retryGo t ok pools conn attempt fuel).outcome = .exhausted →
        (retryGo t ok pools conn attempt fuel).attemptsMade = fuel ∧
        (retryGo t ok pools conn attempt fuel).pool = pools maxRetries ∧
        (retryGo t ok pools conn attempt fuel).sleeps =
          (List.range' attempt (maxRetries - attempt)).map (· * baseDelay) ∧
        (∀ k, attempt ≤ k → k ≤ maxRetries →
          ok k = false ∧ mlookup (pools k) t.name = none)) := by
  intro fuel
  induction fuel with
  | zero =>
    intro attempt h1 h2 h3
    omega
  | succ f ih =>
    intro attempt h1 h2 h3
    simp only [retryGo]
    by_cases hfound : (mlookup (pools attempt) t.name).isSome
    · rw [if_pos hfound]
      dsimp only
      refine ⟨Nat.zero_le _, ?_, ?_, ?_⟩
      · intro j hj
        cases hj
        refine ⟨Nat.le_refl _, h2, hfound, by omega, rfl, by simp, ?_⟩
        intro k hk1 hk2
        omega
      · intro j hj; cases hj
      · intro hj; cases hj
    · rw [if_neg hfound]
      by_cases hok : ok attempt = true
      · rw [if_pos hok]
        dsimp only
        refine ⟨by omega, ?_, ?_, ?_⟩
        · intro j hj; cases hj
        · intro j hj
          cases hj
          refine ⟨Nat.le_refl _, h2, hok, ?_, by omega, rfl, by simp, ?_⟩
          · exact Option.not_isSome_iff_eq_none.mp hfound
          · intro k hk1 hk2
            omega
        · intro hj; cases hj
      · rw [if_neg hok]
        by_cases hlast : attempt = maxRetries
        · rw [if_pos hlast]
          dsimp only
          refine ⟨by omega, ?_, ?_, ?_⟩
          · intro j hj; cases hj
          · intro j hj; cases hj
          · intro _
            have hfuel : f = 0 := by omega
            subst hfuel
            refine ⟨rfl, by rw [hlast], ?_, ?_⟩
            · rw [hlast]
              simp
            · intro k hk1 hk2
              have hk : k = attempt := by omega
              subst hk
              exact ⟨eq_false_of_ne_true hok, Option.not_isSome_iff_eq_none.mp hfound⟩
        · rw [if_neg hlast]
          dsimp only
          have hrec := ih (attempt + 1) (by omega) (by omega) (by omega)
          obtain ⟨hb, hac, hcn, hex⟩ := hrec
          refine ⟨by omega, ?_, ?_, ?_⟩
          · intro j hj
            obtain ⟨g1, g2, g3, g4, g5, g6, g7⟩ := hac j hj
            refine ⟨by omega, g2, g3, by omega, g5, ?_, ?_⟩
            · rw [g6]
              have hn : j - attempt = (j - (attempt + 1)) + 1 := by omega
              rw [hn, List.range'_succ, List.map_cons]
            · intro k hk1 hk2
              rcases Nat.eq_or_lt_of_le hk1 with hk | hk
              · subst hk
                exact ⟨eq_false_of_ne_true hok, Option.not_isSome_iff_eq_none.mp hfound⟩
              · exact g7 k hk hk2
          · intro j hj
            obtain ⟨g1, g2, g3, g4, g5, g6, g7, g8⟩ := hcn j hj
            refine ⟨by omega, g2, g3, g4, by omega, g6, ?_, ?_⟩
            · rw [g7]
              have hn : j - attempt = (j - (attempt + 1)) + 1 := by omega
              rw [hn, List.range'_succ, List.map_cons]
            · intro k hk1 hk2
              rcases Nat.eq_or_lt_of_le hk1 with hk | hk
              · subst hk
                exact ⟨eq_false_of_ne_true hok, Option.not_isSome_iff_eq_none.mp hfound⟩
              · exact g8 k hk hk2
          · intro hj
            obtain ⟨g1, g2, g3, g4⟩ := hex hj
            refine ⟨by omega, g2, ?_, ?_⟩
            · rw [g3]
              have hn : maxRetries - attempt = (maxRetries - (attempt + 1)) + 1 := by omega
              rw [hn, List.range'_succ, List.map_cons]
            · intro k hk1 hk2
              rcases Nat.eq_or_lt_of_le hk1 with hk | hk
              · subst hk
                exact ⟨eq_false_of_ne_true hok, Option.not_isSome_iff_eq_none.mp hfound⟩
              · exact g4 k hk hk2

/-- `reloadTenantDatabases` never deletes a pool entry: lookups of keys
already present are unchanged (shared by several claims). -/
theorem reload_preserves (rows : List TenantRow) (connectOk : TenantDB → Bool)
    (newConn : TenantDB → Nat) (pool : PoolMap) (k : String) (hk : k ∈ mkeys pool) :
    mlookup (reloadTenantDatabases rows connectOk newConn pool).pool k =
      mlookup pool k :=
  (reloadGo_spec connectOk newConn (mkeys pool) (queryTenantsWithDatabase rows)
    pool).2.2.2 k hk

theorem mkeys_minsert {α : Type} (m : List (String × α)) (k : String) (v : α) :
    mkeys (minsert m k v) = k :: (mkeys m).filter (fun x => x ≠ k) := by
  simp only [minsert, mkeys, List.map_cons]
  rw [show (merase m k).map (·.1) = mkeys (merase m k) from rfl, mkeys_merase]
  rfl

/-- Every atomic transition of the engine preserves equality of the key lists
of the session map and the authenticated-session map: each of them touches
the two maps with the same insertions and deletions inside its critical
section. -/
theorem step_preserves_keys {st st' : EngineState} (h : Step st st')
    (hkeys : mkeys st.sessions = mkeys st.authenticatedSessions) :
    mkeys st'.sessions = mkeys st'.authenticatedSessions := by
  cases h with
  | register sid ws a =>
    show mkeys (minsert st.sessions sid ws) = mkeys (minsert st.authenticatedSessions sid a)
    rw [mkeys_minsert, mkeys_minsert, hkeys]
  | cleanup sid =>
    show mkeys (merase st.sessions sid) = mkeys (merase st.authenticatedSessions sid)
    rw [mkeys_merase, mkeys_merase, hkeys]
  | zombieSweep probeOk =>
    obtain ⟨_, h2, h3⟩ :=
      cleanupZombieSessions_spec st.sessions st.authenticatedSessions probeOk
    show mkeys (cleanupZombieSessions st.sessions st.authenticatedSessions probeOk).sessions =
      mkeys (cleanupZombieSessions st.sessions st.authenticatedSessions probeOk).auth
    rw [h2, h3, mkeys_meraseAll, mkeys_meraseAll, hkeys]
  | broadcastPub msg sendOk =>
    obtain ⟨h1, h2⟩ := bpmGo_live st.authenticatedSessions msg sendOk st.sessions
      st.sessions st.authenticatedSessions
    show mkeys (BroadcastPublicationMessage st.sessions st.authenticatedSessions
      msg sendOk).sessions = _
    rw [show BroadcastPublicationMessage st.sessions st.authenticatedSessions msg sendOk =
      bpmGo st.authenticatedSessions msg sendOk st.sessions st.sessions
        st.authenticatedSessions from rfl]
    rw [h1, h2, mkeys_meraseAll, mkeys_meraseAll, hkeys]
  | broadcastSys msg sendOk =>
    obtain ⟨_, _, _, h4, h5⟩ := bsmGo_spec sendOk st.sessions st.sessions
      st.authenticatedSessions
    show mkeys (BroadcastSystemMessage st.sessions st.authenticatedSessions
      msg sendOk).sessions = _
    rw [show BroadcastSystemMessage st.sessions st.authenticatedSessions msg sendOk =
      bsmGo sendOk st.sessions st.sessions st.authenticatedSessions from rfl]
    rw [h4, h5, mkeys_meraseAll, mkeys_meraseAll, hkeys]
  | disconnectAll => rfl
  | poolOp pool' => exact hkeys

/-! ## The claims -/

/-- C6: In every reachable state the session map and the authenticated-session
map have exactly the same key set (here proved in the strong form: the key
lists are equal, so in particular every session id present in one is present
in the other).  Each operation that modifies them — registration
(websocket.go:84-88), `cleanupSession` (websocket.go:328-337), the zombie
sweep (websocket.go:340-378), broadcast send-failure removal
(websocket.go:211-214 and src/unnamed/part_004:224-227) and
`DisconnectAllSessions` (websocket.go:271-274) — is one constructor of
`Step`, i.e. one write-lock critical section touching both maps together, and
the invariant is preserved by every one of them. -/
theorem claim_C6_session_auth_maps_same_keys (st : EngineState) (h : Reachable st) :
    mkeys st.sessions = mkeys st.authenticatedSessions := by
  induction h with
  | refl => rfl
  | tail _ hstep ih => exact step_preserves_keys hstep ih

theorem claim_C6_witness :
    mkeys ([(("s1" : String), (⟨1, "t1", 7⟩ : WSSession))]) =
      mkeys ([(("s1" : String), (⟨"s1", "t1", 7⟩ : AuthenticatedSession))]) :=
  claim_C6_session_auth_maps_same_keys
    ⟨[("s1", ⟨1, "t1", 7⟩)], [("s1", ⟨"s1", "t1", 7⟩)], []⟩
    (Relation.ReflTransGen.tail Relation.ReflTransGen.refl
      (Step.register "s1" ⟨1, "t1", 7⟩ ⟨"s1", "t1", 7⟩))

/-- C1: In every reachable state, `BroadcastPublicationMessage` attempts a
send to a session only if that session's authenticated identity exists in the
snapshot and its tenant name equals the message's `tenant_name`
(src/unnamed/part_004:193-207); conversely a session whose identity names a
different tenant never gets a send attempt.  The property holds for every
state, hence in particular for every state reachable under any interleaving
of registrations, unregistrations and broadcasts. -/
theorem claim_C1_broadcast_tenant_isolation (st : EngineState) (_hreach : Reachable st)
    (msg : PublicationMessage) (sendOk : String → Bool) (sid : String) :
    (sid ∈ (BroadcastPublicationMessage st.sessions st.authenticatedSessions
        msg sendOk).attempted →
      ∃ a, mlookup st.authenticatedSessions sid = some a ∧
        a.tenantName = msg.tenantName) ∧
    (∀ a, mlookup st.authenticatedSessions sid = some a →
      a.tenantName ≠ msg.tenantName →
      ¬ sid ∈ (BroadcastPublicationMessage st.sessions st.authenticatedSessions
        msg sendOk).attempted) := by
  have hmem := bpmGo_attempted_mem st.authenticatedSessions msg sendOk st.sessions
    st.sessions st.authenticatedSessions sid
  constructor
  · intro hin
    obtain ⟨_, a, ha, hacc⟩ := hmem.mp hin
    refine ⟨a, ha, ?_⟩
    have := hacc
    simp only [AuthenticatedSession.canAccessTenant, beq_iff_eq] at this
    exact this
  · intro a ha hne hin
    obtain ⟨_, a', ha', hacc⟩ := hmem.mp hin
    rw [ha] at ha'
    cases ha'
    simp only [AuthenticatedSession.canAccessTenant, beq_iff_eq] at hacc
    exact hne hacc

theorem claim_C1_witness :
    ∃ a, mlookup ([(("s1" : String), (⟨"s1", "t1", 7⟩ : AuthenticatedSession))]) "s1" =
        some a ∧ a.tenantName = "t1" :=
  (claim_C1_broadcast_tenant_isolation
    ⟨[("s1", ⟨1, "t1", 7⟩)], [("s1", ⟨"s1", "t1", 7⟩)], []⟩
    (Relation.ReflTransGen.tail Relation.ReflTransGen.refl
      (Step.register "s1" ⟨1, "t1", 7⟩ ⟨"s1", "t1", 7⟩))
    ⟨"database", "t1", "wh_tasks", "INSERT", none, none, "m", 0, "ts", ""⟩
    (fun _ => true) "s1").1 (by decide)

/-- C7: a session in the session map whose probe write fails is absent from
both the session map and the authenticated-session map after
`cleanupZombieSessions` completes (the zombies are collected during the sweep
and removed afterwards, from both maps, websocket.go:356-372); a session
whose probe succeeds remains. -/
theorem claim_C7_zombie_sweep (sessions : SessionMap) (auth : AuthMap)
    (probeOk : String → Bool) (sid : String) :
    (sid ∈ mkeys sessions → probeOk sid = false →
      ¬ sid ∈ mkeys (cleanupZombieSessions sessions auth probeOk).sessions ∧
      ¬ sid ∈ mkeys (cleanupZombieSessions sessions auth probeOk).auth) ∧
    (sid ∈ mkeys sessions → probeOk sid = true →
      sid ∈ mkeys (cleanupZombieSessions sessions auth probeOk).sessions ∧
      (sid ∈ mkeys auth → sid ∈ mkeys (cleanupZombieSessions sessions auth probeOk).auth)) := by
  obtain ⟨hz, hs, ha⟩ := cleanupZombieSessions_spec sessions auth probeOk
  constructor
  · intro hmem hfail
    have hzmem : sid ∈ (cleanupZombieSessions sessions auth probeOk).zombies := by
      rw [hz, List.mem_filter]
      exact ⟨hmem, by simp [hfail]⟩
    constructor
    · rw [hs, mkeys_meraseAll, List.mem_filter]
      rintro ⟨-, hdec⟩
      simp only [decide_eq_true_eq] at hdec
      exact hdec hzmem
    · rw [ha, mkeys_meraseAll, List.mem_filter]
      rintro ⟨-, hdec⟩
      simp only [decide_eq_true_eq] at hdec
      exact hdec hzmem
  · intro hmem hok
    have hznot : ¬ sid ∈ (cleanupZombieSessions sessions auth probeOk).zombies := by
      rw [hz, List.mem_filter]
      rintro ⟨-, hdec⟩
      simp [hok] at hdec
    constructor
    · rw [hs, mkeys_meraseAll, List.mem_filter]
      exact ⟨hmem, by simpa using hznot⟩
    · intro hauth
      rw [ha, mkeys_meraseAll, List.mem_filter]
      exact ⟨hauth, by simpa using hznot⟩

theorem claim_C7_witness :
    (¬ ("s1" : String) ∈ mkeys (cleanupZombieSessions
        [("s1", (⟨1, "t1", 7⟩ : WSSession)), ("s2", ⟨2, "t1", 8⟩)]
        [("s1", (⟨"s1", "t1", 7⟩ : AuthenticatedSession)), ("s2", ⟨"s2", "t1", 8⟩)]
        (fun s => s ≠ "s1")).sessions ∧
      ¬ ("s1" : String) ∈ mkeys (cleanupZombieSessions
        [("s1", (⟨1, "t1", 7⟩ : WSSession)), ("s2", ⟨2, "t1", 8⟩)]
        [("s1", (⟨"s1", "t1", 7⟩ : AuthenticatedSession)), ("s2", ⟨"s2", "t1", 8⟩)]
        (fun s => s ≠ "s1")).auth) ∧
    (("s2" : String) ∈ mkeys (cleanupZombieSessions
        [("s1", (⟨1, "t1", 7⟩ : WSSession)), ("s2", ⟨2, "t1", 8⟩)]
        [("s1", (⟨"s1", "t1", 7⟩ : AuthenticatedSession)), ("s2", ⟨"s2", "t1", 8⟩)]
        (fun s => s ≠ "s1")).sessions ∧
      ("s2" : String) ∈ mkeys (cleanupZombieSessions
        [("s1", (⟨1, "t1", 7⟩ : WSSession)), ("s2", ⟨2, "t1", 8⟩)]
        [("s1", (⟨"s1", "t1", 7⟩ : AuthenticatedSession)), ("s2", ⟨"s2", "t1", 8⟩)]
        (fun s => s ≠ "s1")).auth) :=
  ⟨(claim_C7_zombie_sweep
      [("s1", ⟨1, "t1", 7⟩), ("s2", ⟨2, "t1", 8⟩)]
      [("s1", ⟨"s1", "t1", 7⟩), ("s2", ⟨"s2", "t1", 8⟩)]
      (fun s => s ≠ "s1") "s1").1 (by decide) (by decide),
   ⟨((claim_C7_zombie_sweep
      [("s1", ⟨1, "t1", 7⟩), ("s2", ⟨2, "t1", 8⟩)]
      [("s1", ⟨"s1", "t1", 7⟩), ("s2", ⟨"s2", "t1", 8⟩)]
      (fun s => s ≠ "s1") "s2").2 (by decide) (by decide)).1,
    ((claim_C7_zombie_sweep
      [("s1", ⟨1, "t1", 7⟩), ("s2", ⟨2, "t1", 8⟩)]
      [("s1", ⟨"s1", "t1", 7⟩), ("s2", ⟨"s2", "t1", 8⟩)]
      (fun s => s ≠ "s1") "s2").2 (by decide) (by decide)).2 (by decide)⟩⟩

/-- C10: `BroadcastSystemMessage` (reached from the control-plane broadcast
endpoint through `BroadcastMessage`, websocket.go:292-303) attempts delivery
to every session of the session-map snapshot — its attempted list is exactly
the key list of the session map, for any contents of the
authenticated-session map (no tenant check, no consultation of that map) —
and only a send failure prevents delivery, removing the failed session from
both live maps. -/
theorem claim_C10_system_broadcast_all_sessions (sessions : SessionMap)
    (auth : AuthMap) (msg : SystemMessage) (sendOk : String → Bool) :
    (BroadcastSystemMessage sessions auth msg sendOk).attempted = mkeys sessions ∧
    (∀ auth' : AuthMap,
      (BroadcastSystemMessage sessions auth' msg sendOk).attempted = mkeys sessions) ∧
    (BroadcastSystemMessage sessions auth msg sendOk).delivered =
      (mkeys sessions).filter sendOk ∧
    (BroadcastSystemMessage sessions auth msg sendOk).failed =
      (mkeys sessions).filter (fun s => ¬ sendOk s) ∧
    (BroadcastSystemMessage sessions auth msg sendOk).sessions =
      meraseAll sessions (BroadcastSystemMessage sessions auth msg sendOk).failed ∧
    (BroadcastSystemMessage sessions auth msg sendOk).auth =
      meraseAll auth (BroadcastSystemMessage sessions auth msg sendOk).failed := by
  obtain ⟨h1, h2, h3, h4, h5⟩ := bsmGo_spec sendOk sessions sessions auth
  exact ⟨h1, fun auth' => (bsmGo_spec sendOk sessions sessions auth').1, h2, h3, h4, h5⟩

/-- C8: for every decoded per-tenant notification payload,
`handlePublicationNotification` (src/unnamed/part_004:136-175) produces an
outbound message of type `"database"` whose `table`, `operation`, `new_data`
and `old_data` are identical to those of the payload (raw JSON forwarded
untouched), whose `db_timestamp` is the payload's `timestamp` and whose
`client_timestamp` is the send-time clock value; in particular the payload
`{table:"wh_categories", operation:"INSERT", new_data:{"id":1,"name":"Support"},
timestamp:1704067200.123}` round-trips with identical fields. -/
theorem claim_C8_notification_roundtrip (tenantName now : String)
    (pg : PostgreSQLNotification) :
    (handlePublicationNotification tenantName now pg).type = "database" ∧
    (handlePublicationNotification tenantName now pg).tenantName = tenantName ∧
    (handlePublicationNotification tenantName now pg).table = pg.table ∧
    (handlePublicationNotification tenantName now pg).operation = pg.operation ∧
    (handlePublicationNotification tenantName now pg).newData = pg.newData ∧
    (handlePublicationNotification tenantName now pg).oldData = pg.oldData ∧
    (handlePublicationNotification tenantName now pg).dbTimestamp = pg.timestamp ∧
    (handlePublicationNotification tenantName now pg).clientTime = now ∧
    handlePublicationNotification "acme" "2024-01-01T12:00:00Z"
        ⟨"wh_categories", "INSERT",
          some "\x7b\x22id\x22:1,\x22name\x22:\x22Support\x22\x7d", none,
          (1704067200123 : Rat) / 1000⟩ =
      ⟨"database", "acme", "wh_categories", "INSERT",
        some "\x7b\x22id\x22:1,\x22name\x22:\x22Support\x22\x7d", none,
        "New record created in acme.wh_categories",
        (1704067200123 : Rat) / 1000, "2024-01-01T12:00:00Z", ""⟩ := by
  unfold handlePublicationNotification
  refine ⟨?_, ?_, ?_, ?_, ?_, ?_, ?_, ?_, by rfl⟩ <;>
    (split <;> (try split) <;> (try split) <;> rfl)

/-- C3: the reconcile pass (`reloadTenantDatabases`, delegated to by
`ReloadTenants` when the landlord is connected) attempts a connection exactly
for the tenants read with a non-null database whose name is not a key of the
pool-map snapshot (diff by name); entries already present are left untouched
(their lookups are unchanged); and the count it reports is the number of
newly, successfully connected tenants.  In the Go code the count is logged
(database.go:184-188) while the function's return value is its error; the
model exposes the counted value directly. -/
theorem claim_C3_reconcile_diff_by_name (rows : List TenantRow)
    (connectOk : TenantDB → Bool) (newConn : TenantDB → Nat) (pool : PoolMap) :
    (reloadTenantDatabases rows connectOk newConn pool).attempted =
      ((queryTenantsWithDatabase rows).filter
        (fun t => ¬ t.name ∈ mkeys pool)).map (·.name) ∧
    (∀ k, k ∈ mkeys pool →
      mlookup (reloadTenantDatabases rows connectOk newConn pool).pool k =
        mlookup pool k) ∧
    (reloadTenantDatabases rows connectOk newConn pool).newTenantsCount =
      (((queryTenantsWithDatabase rows).filter
        (fun t => ¬ t.name ∈ mkeys pool)).filter connectOk).length ∧
    ReloadTenants true rows connectOk newConn pool =
      some (reloadTenantDatabases rows connectOk newConn pool) := by
  obtain ⟨h1, _, h3, h4⟩ := reloadGo_spec connectOk newConn (mkeys pool)
    (queryTenantsWithDatabase rows) pool
  exact ⟨h1, h4, h3, rfl⟩

theorem claim_C3_witness :
    (reloadTenantDatabases
        [⟨1, "t0", "d0", some "db0"⟩, ⟨2, "t1", "d1", some "db1"⟩, ⟨3, "t2", "d2", none⟩]
        (fun _ => true) (fun t => t.id.toNat) [("t0", 5)]).attempted = ["t1"] ∧
    mlookup (reloadTenantDatabases
        [⟨1, "t0", "d0", some "db0"⟩, ⟨2, "t1", "d1", some "db1"⟩, ⟨3, "t2", "d2", none⟩]
        (fun _ => true) (fun t => t.id.toNat) [("t0", 5)]).pool "t0" =
      mlookup [(("t0" : String), 5)] "t0" ∧
    (reloadTenantDatabases
        [⟨1, "t0", "d0", some "db0"⟩, ⟨2, "t1", "d1", some "db1"⟩, ⟨3, "t2", "d2", none⟩]
        (fun _ => true) (fun t => t.id.toNat) [("t0", 5)]).newTenantsCount = 1 :=
  ⟨by decide,
   (claim_C3_reconcile_diff_by_name
      [⟨1, "t0", "d0", some "db0"⟩, ⟨2, "t1", "d1", some "db1"⟩, ⟨3, "t2", "d2", none⟩]
      (fun _ => true) (fun t => t.id.toNat) [("t0", 5)]).2.1 "t0" (by decide),
   by decide⟩

/-- C9: a landlord tenant-change notification with a non-empty payload that
fails to parse makes `handleTenantChangeNotification` fall back to a full
reconcile pass (database.go:293-300) — the reload is performed, nothing is
closed, and existing pool entries are untouched (the reconcile only adds
tenants, so a parse failure alone never removes or closes a connection). -/
theorem claim_C9_parse_failure_reconciles (rows : List TenantRow)
    (connectOk : TenantDB → Bool) (newConn : TenantDB → Nat) (pool : PoolMap)
    (extra : String) (hextra : extra ≠ "") :
    (handleTenantChangeNotification rows connectOk newConn pool extra none).actions =
      [.fullReload] ∧
    (handleTenantChangeNotification rows connectOk newConn pool extra none).pool =
      (reloadTenantDatabases rows connectOk newConn pool).pool ∧
    (handleTenantChangeNotification rows connectOk newConn pool extra none).closed = [] ∧
    (∀ k, k ∈ mkeys pool →
      mlookup (handleTenantChangeNotification rows connectOk newConn pool extra none).pool k
        = mlookup pool k) := by
  unfold handleTenantChangeNotification
  rw [if_pos hextra]
  exact ⟨rfl, rfl, rfl, fun k hk => reload_preserves rows connectOk newConn pool k hk⟩

theorem claim_C9_witness :
    (handleTenantChangeNotification [⟨1, "t1", "d1", some "db1"⟩] (fun _ => true)
        (fun _ => 9) [("t0", 5)] "not json" none).actions = [.fullReload] ∧
    (handleTenantChangeNotification [⟨1, "t1", "d1", some "db1"⟩] (fun _ => true)
        (fun _ => 9) [("t0", 5)] "not json" none).closed = [] ∧
    mlookup (handleTenantChangeNotification [⟨1, "t1", "d1", some "db1"⟩] (fun _ => true)
        (fun _ => 9) [("t0", 5)] "not json" none).pool "t0" =
      mlookup [(("t0" : String), 5)] "t0" := by
  obtain ⟨h1, _, h3, h4⟩ := claim_C9_parse_failure_reconciles
    [⟨1, "t1", "d1", some "db1"⟩] (fun _ => true) (fun _ => 9) [("t0", 5)]
    "not json" (by decide)
  exact ⟨h1, h3, h4 "t0" (by decide)⟩

/-- C5: `connectToTenantWithRetry` makes at most `maxRetries = 5` connection
attempts (the model is a total function, so it always terminates); before
each attempt it re-reads the shared pool (`pools k` is the pool observed at
iteration `k`) and returns at once, without attempting and without writing,
when the tenant is already present; after a failed attempt `k < 5` it sleeps
`k * baseDelay = k × 2` seconds before the next attempt (the recorded sleeps
are exactly `k * 2` for the failed non-final attempts); and when all 5
attempts fail it gives up without modifying the pool map (its resulting pool
is exactly the pool it last observed). -/
theorem claim_C5_bounded_retry (t : TenantDB) (ok : Nat → Bool)
    (pools : Nat → PoolMap) (conn : Nat) :
    (connectToTenantWithRetry t ok pools conn).attemptsMade ≤ maxRetries ∧
    (∀ j, (connectToTenantWithRetry t ok pools conn).outcome = .alreadyConnected j →
      1 ≤ j ∧ j ≤ maxRetries ∧ (mlookup (pools j) t.name).isSome ∧
      (connectToTenantWithRetry t ok pools conn).attemptsMade = j - 1 ∧
      (connectToTenantWithRetry t ok pools conn).pool = pools j ∧
      (connectToTenantWithRetry t ok pools conn).sleeps =
        (List.range' 1 (j - 1)).map (· * baseDelay) ∧
      (∀ k, 1 ≤ k → k < j → ok k = false ∧ mlookup (pools k) t.name = none)) ∧
    (∀ j, (connectToTenantWithRetry t ok pools conn).outcome = .connected j →
      1 ≤ j ∧ j ≤ maxRetries ∧ ok j = true ∧ mlookup (pools j) t.name = none ∧
      (connectToTenantWithRetry t ok pools conn).attemptsMade = j - 1 + 1 ∧
      (connectToTenantWithRetry t ok pools conn).pool = minsert (pools j) t.name conn ∧
      (connectToTenantWithRetry t ok pools conn).sleeps =
        (List.range' 1 (j - 1)).map (· * baseDelay) ∧
      (∀ k, 1 ≤ k → k < j → ok k = false ∧ mlookup (pools k) t.name = none)) ∧
    ((connectToTenantWithRetry t ok pools conn).outcome = .exhausted →
      (connectToTenantWithRetry t ok pools conn).attemptsMade = maxRetries ∧
      (connectToTenantWithRetry t ok pools conn).pool = pools maxRetries ∧
      (connectToTenantWithRetry t ok pools conn).sleeps =
        (List.range' 1 (maxRetries - 1)).map (· * baseDelay) ∧
      (∀ k, 1 ≤ k → k ≤ maxRetries →
        ok k = false ∧ mlookup (pools k) t.name = none)) :=
  retryGo_spec t ok pools conn maxRetries 1 (Nat.le_refl 1) (by decide) (by omega)

theorem claim_C5_witness :
    (connectToTenantWithRetry ⟨1, "t1", "d1", "db1"⟩ (fun _ => false)
        (fun _ => []) 3).attemptsMade = maxRetries ∧
    (connectToTenantWithRetry ⟨1, "t1", "d1", "db1"⟩ (fun _ => false)
        (fun _ => []) 3).pool = (fun _ => ([] : PoolMap)) maxRetries ∧
    (connectToTenantWithRetry ⟨1, "t1", "d1", "db1"⟩ (fun _ => false)
        (fun _ => []) 3).sleeps =
      (List.range' 1 (maxRetries - 1)).map (· * baseDelay) ∧
    (∀ k, 1 ≤ k → k ≤ maxRetries →
      (fun _ => false) k = false ∧
      mlookup ((fun _ => ([] : PoolMap)) k) (⟨1, "t1", "d1", "db1"⟩ :
        TenantDB).name = none) :=
  (claim_C5_bounded_retry ⟨1, "t1", "d1", "db1"⟩ (fun _ => false)
    (fun _ => []) 3).2.2.2 (by decide)

/-- C4, counterexample: the discovery query matches trigger names with SQL
`LIKE '%_changes_trigger'`, whose `_` positions match ANY character, and
derives the channel by `REPLACE`, not by suffix-stripping.  The database whose
only trigger is the non-internal `aXchangesYtrigger` has NO trigger literally
named `<table>_changes_trigger` (so the claim demands zero subscriptions),
yet the listener subscribes to the channel
`whagons_aXchangesYtrigger_changes`. -/
theorem claim_C4_counterexample :
    specConventionTables [⟨"aXchangesYtrigger", false⟩] = [] ∧
    (listenToTenantPublications [("acme", 1)] "acme"
        (some [⟨"aXchangesYtrigger", false⟩]) (fun _ => true)).subscribed =
      ["whagons_aXchangesYtrigger_changes"] ∧
    (listenToTenantPublications [("acme", 1)] "acme"
        (some [⟨"aXchangesYtrigger", false⟩]) (fun _ => true)).subscribed ≠ [] :=
  ⟨by decide, by decide, by decide⟩

/-- C4, amended: the listener subscribes to one channel `whagons_<name>_changes`
per distinct `<name> = REPLACE(tgname, '_changes_trigger', '')` over the
non-internal triggers whose name matches the SQL LIKE pattern
`'%_changes_trigger'` (`_` matching any single character).  For a connected
tenant whose matching non-internal triggers are exactly those literally named
`<table>_changes_trigger` for N distinct tables on which REPLACE behaves as
suffix-stripping, and whose subscriptions all succeed, it subscribes to
exactly the N channels `whagons_<table>_changes` and to no other channel; if
discovery yields zero channels it warns and returns without subscribing. -/
theorem claim_C4_amended (pool : PoolMap) (tenantName : String) (c : Nat)
    (cat : List PgTrigger) (tables : List String)
    (hpool : mlookup pool tenantName = some c)
    (hcat : (cat.filter (fun tg => !tg.tgisinternal &&
        sqlLike "%_changes_trigger" tg.tgname)).map (fun tg => tg.tgname) =
      tables.map (fun tb => tb ++ "_changes_trigger"))
    (hstrip : ∀ tb ∈ tables,
      sqlReplace (tb ++ "_changes_trigger") "_changes_trigger" "" = tb)
    (hnd : tables.Nodup) :
    (listenToTenantPublications pool tenantName (some cat)
        (fun _ => true)).subscribed.length = tables.length ∧
    (∀ ch, ch ∈ (listenToTenantPublications pool tenantName (some cat)
        (fun _ => true)).subscribed ↔
      ∃ tb, tb ∈ tables ∧ ch = "whagons_" ++ tb ++ "_changes") ∧
    (tables = [] →
      (listenToTenantPublications pool tenantName (some cat)
        (fun _ => true)).subscribed = [] ∧
      (listenToTenantPublications pool tenantName (some cat)
        (fun _ => true)).warnedNoChannels = true) := by
  have hfilterid : ∀ l : List String, l.filter (fun _ => true) = l := by
    intro l
    induction l with
    | nil => rfl
    | cons x xs ih => simp [List.filter_cons, ih]
  have hnames : (cat.filter (fun tg => !tg.tgisinternal &&
      sqlLike "%_changes_trigger" tg.tgname)).map
      (fun tg => sqlReplace tg.tgname "_changes_trigger" "") = tables := by
    have h1 : (cat.filter (fun tg => !tg.tgisinternal &&
        sqlLike "%_changes_trigger" tg.tgname)).map
        (fun tg => sqlReplace tg.tgname "_changes_trigger" "") =
        ((cat.filter (fun tg => !tg.tgisinternal &&
          sqlLike "%_changes_trigger" tg.tgname)).map (fun tg => tg.tgname)).map
          (fun s => sqlReplace s "_changes_trigger" "") := by
      rw [List.map_map]
      rfl
    rw [h1, hcat, List.map_map]
    have h2 : ∀ tb ∈ tables,
        ((fun s => sqlReplace s "_changes_trigger" "") ∘
          (fun tb => tb ++ "_changes_trigger")) tb = id tb := by
      intro tb htb
      exact hstrip tb htb
    rw [List.map_congr_left h2, List.map_id]
  have hchan : discoverChannels cat =
      (sortStrings tables).map (fun tb => "whagons_" ++ tb ++ "_changes") := by
    unfold discoverChannels
    rw [hnames]
    dsimp only
    rw [List.dedup_eq_self.mpr hnd]
  unfold listenToTenantPublications
  rw [hpool]
  dsimp only
  rw [hchan]
  rcases eq_or_ne tables [] with htab | htab
  · subst htab
    rw [show sortStrings [] = [] from rfl, List.map_nil]
    rw [if_pos (show ([] : List String).isEmpty = true from rfl)]
    refine ⟨rfl, ?_, fun _ => ⟨rfl, rfl⟩⟩
    intro ch
    simp
  · have hne : ¬ ((sortStrings tables).map
        (fun tb => "whagons_" ++ tb ++ "_changes")).isEmpty = true := by
      intro hh
      rw [List.isEmpty_iff] at hh
      rw [List.map_eq_nil_iff] at hh
      have hlen := congrArg List.length hh
      rw [length_sortStrings] at hlen
      exact htab (List.length_eq_zero.mp hlen)
    rw [if_neg hne]
    refine ⟨?_, ?_, fun h => absurd h htab⟩
    · show (((sortStrings tables).map _).filter _).length = _
      rw [hfilterid, List.length_map, length_sortStrings]
    · intro ch
      show ch ∈ ((sortStrings tables).map _).filter _ ↔ _
      rw [hfilterid, List.mem_map]
      constructor
      · rintro ⟨tb, htb, heq⟩
        exact ⟨tb, (mem_sortStrings tb tables).mp htb, heq.symm⟩
      · rintro ⟨tb, htb, heq⟩
        exact ⟨tb, (mem_sortStrings tb tables).mpr htb, heq.symm⟩

theorem claim_C4_witness :
    (listenToTenantPublications [("acme", 1)] "acme"
        (some [⟨"wh_tasks_changes_trigger", false⟩,
          ⟨"wh_categories_changes_trigger", false⟩,
          ⟨"RI_ConstraintTrigger_c_1", true⟩])
        (fun _ => true)).subscribed.length =
      (["wh_tasks", "wh_categories"] : List String).length ∧
    (("whagons_wh_tasks_changes" : String) ∈ (listenToTenantPublications
        [("acme", 1)] "acme"
        (some [⟨"wh_tasks_changes_trigger", false⟩,
          ⟨"wh_categories_changes_trigger", false⟩,
          ⟨"RI_ConstraintTrigger_c_1", true⟩])
        (fun _ => true)).subscribed ↔
      ∃ tb, tb ∈ (["wh_tasks", "wh_categories"] : List String) ∧
        ("whagons_wh_tasks_changes" : String) = "whagons_" ++ tb ++ "_changes") :=
  ⟨(claim_C4_amended [("acme", 1)] "acme" 1
      [⟨"wh_tasks_changes_trigger", false⟩, ⟨"wh_categories_changes_trigger", false⟩,
        ⟨"RI_ConstraintTrigger_c_1", true⟩]
      ["wh_tasks", "wh_categories"] (by decide) (by decide) (by decide) (by decide)).1,
   (claim_C4_amended [("acme", 1)] "acme" 1
      [⟨"wh_tasks_changes_trigger", false⟩, ⟨"wh_categories_changes_trigger", false⟩,
        ⟨"RI_ConstraintTrigger_c_1", true⟩]
      ["wh_tasks", "wh_categories"] (by decide) (by decide) (by decide) (by decide)).2.1
      "whagons_wh_tasks_changes"⟩

/-- C2, counterexample: processing the DELETE for the connected tenant `t1`
does close its connection (handle 7) and empties the pool, but a subsequent
broadcast with `tenant_name = "t1"` still delivers to the stale session `s1`
(authenticated for `t1`): `BroadcastPublicationMessage` filters only on the
session maps and never consults the pool map, so delivery to zero sessions
fails exactly when stale session entries for the deleted tenant remain. -/
theorem claim_C2_counterexample :
    (handleTenantChangeNotification [] (fun _ => true) (fun _ => 0) [("t1", 7)]
        "x" (some ⟨"DELETE", "tenants", none, some ⟨1, "t1", "d1", "db1"⟩, 0⟩)).pool
      = [] ∧
    (handleTenantChangeNotification [] (fun _ => true) (fun _ => 0) [("t1", 7)]
        "x" (some ⟨"DELETE", "tenants", none, some ⟨1, "t1", "d1", "db1"⟩, 0⟩)).closed
      = [7] ∧
    (BroadcastPublicationMessage [("s1", ⟨1, "t1", 9⟩)] [("s1", ⟨"s1", "t1", 9⟩)]
        ⟨"database", "t1", "wh_tasks", "INSERT", none, none, "m", 0, "ts", ""⟩
        (fun _ => true)).delivered = ["s1"] ∧
    (BroadcastPublicationMessage [("s1", ⟨1, "t1", 9⟩)] [("s1", ⟨"s1", "t1", 9⟩)]
        ⟨"database", "t1", "wh_tasks", "INSERT", none, none, "m", 0, "ts", ""⟩
        (fun _ => true)).delivered ≠ [] :=
  ⟨by decide, by decide, by decide, by decide⟩

/-- C2, amended: after processing a DELETE tenant-change notification whose
`old_data` names a connected tenant, that tenant's pooled connection is
closed and its entry removed from the pool map (database.go:329-342);
however, broadcast delivery never consults the pool map: a subsequent
broadcast whose `tenant_name` is the deleted tenant still attempts delivery
to exactly those sessions of the session map whose authenticated identity
names that tenant — including stale sessions that survived the deletion. -/
theorem claim_C2_amended (rows : List TenantRow) (connectOk : TenantDB → Bool)
    (newConn : TenantDB → Nat) (pool : PoolMap) (extra : String)
    (p : TenantChangePayload) (t : TenantDB) (c : Nat)
    (hextra : extra ≠ "") (hop : p.operation = "DELETE")
    (hold : p.oldData = some t) (hconn : mlookup pool t.name = some c)
    (sessions : SessionMap) (auth : AuthMap) (msg : PublicationMessage)
    (sendOk : String → Bool) (sid : String) (hmsg : msg.tenantName = t.name) :
    (handleTenantChangeNotification rows connectOk newConn pool extra (some p)).pool
      = merase pool t.name ∧
    (handleTenantChangeNotification rows connectOk newConn pool extra (some p)).closed
      = [c] ∧
    mlookup (handleTenantChangeNotification rows connectOk newConn pool extra
      (some p)).pool t.name = none ∧
    (sid ∈ (BroadcastPublicationMessage sessions auth msg sendOk).attempted ↔
      sid ∈ mkeys sessions ∧
        ∃ a, mlookup auth sid = some a ∧ a.tenantName = t.name) := by
  have hred : handleTenantChangeNotification rows connectOk newConn pool extra
      (some p) = ⟨merase pool t.name, [c], []⟩ := by
    unfold handleTenantChangeNotification
    rw [if_pos hextra]
    dsimp only
    rw [hop]
    rw [if_neg (by decide : ¬ ("DELETE" : String) = "CONNECTION_TEST")]
    rw [if_neg (by decide : ¬ ("DELETE" : String) = "MANUAL_TEST")]
    rw [if_neg (by decide : ¬ ("DELETE" : String) = "INSERT")]
    rw [if_neg (by decide : ¬ ("DELETE" : String) = "UPDATE")]
    rw [if_pos (show ("DELETE" : String) = "DELETE" from rfl)]
    rw [hold]
    dsimp only
    rw [hconn]
  refine ⟨by rw [hred], by rw [hred], ?_, ?_⟩
  · rw [hred]
    show mlookup (merase pool t.name) t.name = none
    rw [mlookup_merase, if_pos rfl]
  · show sid ∈ (bpmGo auth msg sendOk sessions sessions auth).attempted ↔ _
    rw [bpmGo_attempted_mem auth msg sendOk sessions sessions auth sid]
    constructor
    · rintro ⟨hm, a, ha, hacc⟩
      simp only [AuthenticatedSession.canAccessTenant, beq_iff_eq] at hacc
      exact ⟨hm, a, ha, hmsg ▸ hacc⟩
    · rintro ⟨hm, a, ha, hten⟩
      refine ⟨hm, a, ha, ?_⟩
      simp only [AuthenticatedSession.canAccessTenant, beq_iff_eq]
      rw [hmsg, hten]

theorem claim_C2_witness :
    (handleTenantChangeNotification [] (fun _ => true) (fun _ => 0)
        [("t2", 8), ("t3", 9)] "y"
        (some ⟨"DELETE", "tenants", none, some ⟨2, "t2", "d2", "db2"⟩, 0⟩)).pool
      = merase [("t2", 8), ("t3", 9)] "t2" ∧
    (handleTenantChangeNotification [] (fun _ => true) (fun _ => 0)
        [("t2", 8), ("t3", 9)] "y"
        (some ⟨"DELETE", "tenants", none, some ⟨2, "t2", "d2", "db2"⟩, 0⟩)).closed
      = [8] ∧
    mlookup (handleTenantChangeNotification [] (fun _ => true) (fun _ => 0)
        [("t2", 8), ("t3", 9)] "y"
        (some ⟨"DELETE", "tenants", none, some ⟨2, "t2", "d2", "db2"⟩, 0⟩)).pool "t2"
      = none ∧
    (("sa" : String) ∈ (BroadcastPublicationMessage [("sa", ⟨1, "t2", 4⟩)]
        [("sa", ⟨"sa", "t2", 4⟩)]
        ⟨"database", "t2", "wh_teams", "UPDATE", none, none, "m", 0, "ts", ""⟩
        (fun _ => true)).attempted ↔
      ("sa" : String) ∈ mkeys [(("sa" : String), (⟨1, "t2", 4⟩ : WSSession))] ∧
        ∃ a, mlookup [(("sa" : String), (⟨"sa", "t2", 4⟩ : AuthenticatedSession))]
          "sa" = some a ∧ a.tenantName = "t2") :=
  claim_C2_amended [] (fun _ => true) (fun _ => 0) [("t2", 8), ("t3", 9)] "y"
    ⟨"DELETE", "tenants", none, some ⟨2, "t2", "d2", "db2"⟩, 0⟩
    ⟨2, "t2", "d2", "db2"⟩ 8 (by decide) rfl rfl (by decide)
    [("sa", ⟨1, "t2", 4⟩)] [("sa", ⟨"sa", "t2", 4⟩)]
    ⟨"database", "t2", "wh_teams", "UPDATE", none, none, "m", 0, "ts", ""⟩
    (fun _ => true) "sa" rfl

end WhagonsRTE
